import Mathlib

/-!
Verification of the Voice-Assistant backend core (src/app.py): the
conversation-history ring buffer, the chat request pipeline, the TTS
synthesis cache with FIFO eviction, the speech-to-text route, and
age-based audio pruning.  Each definition is a shallow embedding of the
corresponding Python function; theorems settle the specification claims.
-/

/-- One conversation turn, mirroring the dicts stored in
`conversation_history` (app.py line 71): a role and a content string. -/
structure Turn where
  role : String
  content : String
deriving DecidableEq

/-- The last `n` elements of a list, in order: `l[-(n):]` in Python.
Equals `List.rtake`. -/
def lastN (n : Nat) (l : List α) : List α :=
  l.drop (l.length - n)

/-- The trimming step of `append_history` (app.py lines 252-253): if the
length exceeds `2*window`, delete entries from the front down to `2*window`. -/
def trimHistory (window : Nat) (h : List Turn) : List Turn :=
  if h.length > window * 2 then h.drop (h.length - window * 2) else h

/-- Embedding of `append_history` (app.py lines 250-253): append the turn,
then trim to the most recent `2*window` entries. -/
def appendHistory (window : Nat) (hist : List Turn) (role content : String) : List Turn :=
  trimHistory window (hist ++ [⟨role, content⟩])

/-- Folding `appendHistory` over a list of (role, content) pairs, starting
from a given history: the history after a sequence of appends. -/
def historyAfter (window : Nat) (init : List Turn) (ts : List (String × String)) : List Turn :=
  ts.foldl (fun h t => appendHistory window h t.1 t.2) init

theorem lastN_eq_rtake (n : Nat) (l : List α) : lastN n l = l.rtake n := rfl

theorem trimHistory_eq_lastN (window : Nat) (h : List Turn) :
    trimHistory window h = lastN (window * 2) h := by
  unfold trimHistory lastN
  by_cases hlen : h.length > window * 2
  · rw [if_pos hlen]
  · rw [if_neg hlen, Nat.sub_eq_zero_of_le (le_of_not_lt hlen), List.drop_zero]

theorem appendHistory_eq_lastN (window : Nat) (hist : List Turn) (role content : String) :
    appendHistory window hist role content = lastN (window * 2) (hist ++ [⟨role, content⟩]) := by
  unfold appendHistory
  exact trimHistory_eq_lastN window (hist ++ [Turn.mk role content])

theorem rtake_rtake_le (l : List α) (m n : Nat) (h : n ≤ m) :
    (l.rtake m).rtake n = l.rtake n := by
  rw [List.rtake_eq_reverse_take_reverse, List.rtake_eq_reverse_take_reverse,
    List.rtake_eq_reverse_take_reverse, List.reverse_reverse, List.take_take,
    Nat.min_eq_left h]

theorem lastN_append_lastN (n : Nat) (l : List Turn) (t : Turn) :
    lastN n (lastN n l ++ [t]) = lastN n (l ++ [t]) := by
  rw [lastN_eq_rtake, lastN_eq_rtake, lastN_eq_rtake]
  cases n with
  | zero => rw [List.rtake_zero, List.rtake_zero]
  | succ m =>
      rw [List.rtake_concat_succ, List.rtake_concat_succ, rtake_rtake_le]
      exact Nat.le_succ m

theorem historyAfter_cons (window : Nat) (init : List Turn) (t : String × String)
    (ts : List (String × String)) :
    historyAfter window init (t :: ts) =
      historyAfter window (appendHistory window init t.1 t.2) ts := rfl

theorem historyAfter_lastN (window : Nat) (acc : List (String × String))
    (ts : List (String × String)) :
    historyAfter window (lastN (window * 2) (acc.map (fun t => ⟨t.1, t.2⟩))) ts =
      lastN (window * 2) ((acc ++ ts).map (fun t => ⟨t.1, t.2⟩)) := by
  induction ts generalizing acc with
  | nil =>
      rw [List.append_nil]
      rfl
  | cons t ts ih =>
      have step : appendHistory window (lastN (window * 2) (acc.map (fun t => ⟨t.1, t.2⟩)))
          t.1 t.2 = lastN (window * 2) ((acc ++ [t]).map (fun t => ⟨t.1, t.2⟩)) := by
        rw [appendHistory_eq_lastN, lastN_append_lastN, List.map_append]
        rfl
      rw [historyAfter_cons, step]
      have := ih (acc ++ [t])
      rw [List.append_assoc] at this
      simpa using this

theorem lastN_length_le (n : Nat) (l : List α) : (lastN n l).length ≤ n := by
  unfold lastN
  rw [List.length_drop]
  omega

/-- C1: for every sequence of appends to the conversation history (starting
empty), after each append the history length is at most `2*window` and the
stored contents equal the most recent `2*window` appended turns in append
order, the oldest turns having been dropped first.  (The universal
quantification over `ts` covers the state after each individual append,
since every intermediate state is `historyAfter` of an initial segment.) -/
theorem history_bounded_and_recent (window : Nat) (ts : List (String × String)) :
    (historyAfter window [] ts).length ≤ window * 2 ∧
      historyAfter window [] ts =
        lastN (window * 2) (ts.map (fun t => ⟨t.1, t.2⟩)) := by
  have base := historyAfter_lastN window [] ts
  simp only [List.map_nil, List.nil_append] at base
  have empty : lastN (window * 2) ([] : List Turn) = [] := by
    unfold lastN
    simp
  rw [empty] at base
  refine ⟨?_, base⟩
  rw [base]
  exact lastN_length_le _ _

/-! ## TTS synthesis cache (`TTSService`, app.py lines 186-219)

The Python cache is an insertion-ordered `dict` keyed by
`(text, voice or default_voice)`; we model it as an association list in
insertion order.  The filesystem is modelled as the list of file names
existing in the audio directory; `uuid4` fresh names are modelled by a
counter; paths whose `unlink` raises are given by a `badPaths` parameter
(`unlink(missing_ok=True)` never raises on a missing file, and `List.erase`
of an absent path is a no-op).  `engineCalls` counts invocations of the
underlying pyttsx3 engine. -/

abbrev CacheKey := String × String

/-- `self.cache.get(key)` on the insertion-ordered dict. -/
def dictGet (k : CacheKey) : List (CacheKey × String) → Option String
  | [] => none
  | (k', v) :: rest => if k' = k then some v else dictGet k rest

/-- `self.cache[key] = v`: update in place when the key exists (Python dicts
keep the original insertion position), otherwise append at the end. -/
def dictSet (k : CacheKey) (v : String) : List (CacheKey × String) → List (CacheKey × String)
  | [] => [(k, v)]
  | (k', v') :: rest => if k' = k then (k, v) :: rest else (k', v') :: dictSet k v rest

/-- `self.cache.pop(k, None)`: remove the entry with key `k`, if any. -/
def dictPopKey (k : CacheKey) : List (CacheKey × String) → List (CacheKey × String)
  | [] => []
  | (k', v') :: rest => if k' = k then rest else (k', v') :: dictPopKey k rest

/-- State of a `TTSService` instance plus the audio directory contents. -/
structure TTSState where
  cache : List (CacheKey × String)
  disk : List String
  counter : Nat
  engineCalls : Nat
deriving DecidableEq

/-- `self.cache_limit = 20` (app.py line 193). -/
def cacheLimit : Nat := 20

/-- Model of the `tts-{uuid4().hex}.wav` fresh file name (app.py line 201). -/
def freshName (n : Nat) : String := "tts-" ++ Nat.repr n ++ ".wav"

/-- `voice or self.default_voice` (app.py line 196): `None` and the empty
string are falsy in Python, so both resolve to the default voice. -/
def resolveVoice (defaultVoice : String) : Option String → String
  | none => defaultVoice
  | some v => if v = "" then defaultVoice else v

/-- Embedding of `TTSService._evict_cache` (app.py lines 212-219): when the
cache exceeds the limit, unlink the file of the earliest-inserted entry
(`missing_ok=True`; a raising unlink is reported in the `Bool` component)
and pop the entry from the mapping even when the unlink raised (the pop is
in a `finally` block). -/
def evictCache (limit : Nat) (badPaths : List String) :
    List (CacheKey × String) → List String → List (CacheKey × String) × List String × Bool
  | [], disk => ([], disk, false)
  | (k, p) :: rest, disk =>
      if ((k, p) :: rest).length ≤ limit then ((k, p) :: rest, disk, false)
      else if p ∈ badPaths then (dictPopKey k ((k, p) :: rest), disk, true)
      else (dictPopKey k ((k, p) :: rest), disk.erase p, false)

/-- The cache-miss path of `TTSService.synthesize` (app.py lines 201-210):
pick a fresh file name, run the engine (an engine failure raises
`RuntimeError` and caches nothing), then insert into the cache and evict if
over capacity.  A raising eviction unlink propagates out of `synthesize`
(the `finally` block does not swallow it), reported as `Except.error`. -/
def synthesizeMiss (limit : Nat) (engineFails : Bool) (badPaths : List String)
    (st : TTSState) (key : CacheKey) : TTSState × Except String String :=
  if engineFails then
    ({ st with counter := st.counter + 1, engineCalls := st.engineCalls + 1 },
      Except.error "TTS synthesis failed")
  else
    match evictCache limit badPaths (dictSet key (freshName st.counter) st.cache)
        (st.disk ++ [freshName st.counter]) with
    | (cache2, disk2, raised) =>
        ({ cache := cache2, disk := disk2, counter := st.counter + 1,
           engineCalls := st.engineCalls + 1 },
          if raised then Except.error "unlink raised during cache eviction"
          else Except.ok (freshName st.counter))

/-- Embedding of `TTSService.synthesize` (app.py lines 195-210): on a cache
hit whose artifact still exists on disk, return the cached path without
touching the engine; otherwise fall through to the miss path. -/
def synthesize (limit : Nat) (defaultVoice : String) (engineFails : Bool)
    (badPaths : List String) (st : TTSState) (text : String) (voice : Option String) :
    TTSState × Except String String :=
  match dictGet (text, resolveVoice defaultVoice voice) st.cache with
  | some p =>
      if p ∈ st.disk then (st, Except.ok p)
      else synthesizeMiss limit engineFails badPaths st (text, resolveVoice defaultVoice voice)
  | none => synthesizeMiss limit engineFails badPaths st (text, resolveVoice defaultVoice voice)

theorem dictGet_nil (k : CacheKey) : dictGet k [] = none := rfl

theorem dictGet_cons (k k' : CacheKey) (v : String) (rest : List (CacheKey × String)) :
    dictGet k ((k', v) :: rest) = if k' = k then some v else dictGet k rest := rfl

theorem dictSet_of_get_none (k : CacheKey) (v : String) (c : List (CacheKey × String))
    (h : dictGet k c = none) : dictSet k v c = c ++ [(k, v)] := by
  induction c with
  | nil => rfl
  | cons e rest ih =>
      obtain ⟨k', v'⟩ := e
      rw [dictGet_cons] at h
      by_cases hk : k' = k
      · rw [if_pos hk] at h
        cases h
      · rw [if_neg hk] at h
        rw [dictSet, if_neg hk, ih h, List.cons_append]

theorem dictGet_dictSet_self (k : CacheKey) (v : String) (c : List (CacheKey × String)) :
    dictGet k (dictSet k v c) = some v := by
  induction c with
  | nil => simp [dictSet, dictGet_cons]
  | cons e rest ih =>
      obtain ⟨k', v'⟩ := e
      by_cases hk : k' = k
      · rw [dictSet, if_pos hk, dictGet_cons, if_pos rfl]
      · rw [dictSet, if_neg hk, dictGet_cons, if_neg hk]
        exact ih

theorem dictSet_keys_of_get_some (k : CacheKey) (v v0 : String) (c : List (CacheKey × String))
    (h : dictGet k c = some v0) : (dictSet k v c).map Prod.fst = c.map Prod.fst := by
  induction c with
  | nil => cases h
  | cons e rest ih =>
      obtain ⟨k', v'⟩ := e
      rw [dictGet_cons] at h
      by_cases hk : k' = k
      · rw [dictSet, if_pos hk, List.map_cons, List.map_cons, hk]
      · rw [if_neg hk] at h
        rw [dictSet, if_neg hk, List.map_cons, List.map_cons, ih h]

theorem dictSet_length_of_get_some (k : CacheKey) (v v0 : String)
    (c : List (CacheKey × String)) (h : dictGet k c = some v0) :
    (dictSet k v c).length = c.length := by
  have := dictSet_keys_of_get_some k v v0 c h
  have lhs := congrArg List.length this
  rwa [List.length_map, List.length_map] at lhs

theorem dictGet_append_self (k : CacheKey) (v : String) (c : List (CacheKey × String))
    (h : dictGet k c = none) : dictGet k (c ++ [(k, v)]) = some v := by
  induction c with
  | nil => simp [dictGet_cons]
  | cons e rest ih =>
      obtain ⟨k', v'⟩ := e
      rw [dictGet_cons] at h
      by_cases hk : k' = k
      · rw [if_pos hk] at h
        cases h
      · rw [if_neg hk] at h
        rw [List.cons_append, dictGet_cons, if_neg hk]
        exact ih h

theorem dictSet_length_le (k : CacheKey) (v : String) (c : List (CacheKey × String)) :
    (dictSet k v c).length ≤ c.length + 1 := by
  induction c with
  | nil => simp [dictSet]
  | cons e rest ih =>
      obtain ⟨k', v'⟩ := e
      by_cases hk : k' = k
      · rw [dictSet, if_pos hk]
        simp
      · rw [dictSet, if_neg hk]
        simpa using ih

theorem dictPopKey_cons_self (k : CacheKey) (p : String) (rest : List (CacheKey × String)) :
    dictPopKey k ((k, p) :: rest) = rest := by
  rw [dictPopKey, if_pos rfl]

theorem evictCache_of_le (limit : Nat) (bp : List String) (cache : List (CacheKey × String))
    (disk : List String) (h : cache.length ≤ limit) :
    evictCache limit bp cache disk = (cache, disk, false) := by
  cases cache with
  | nil => rfl
  | cons e rest =>
      obtain ⟨k, p⟩ := e
      rw [evictCache, if_pos h]

theorem evictCache_cons_of_gt (limit : Nat) (bp : List String) (k : CacheKey) (p : String)
    (rest : List (CacheKey × String)) (disk : List String)
    (h : ¬((k, p) :: rest).length ≤ limit) :
    evictCache limit bp ((k, p) :: rest) disk =
      if p ∈ bp then (rest, disk, true) else (rest, disk.erase p, false) := by
  rw [evictCache, if_neg h]
  simp only [dictPopKey_cons_self]

theorem evictCache_length_le (limit : Nat) (bp : List String)
    (cache : List (CacheKey × String)) (disk : List String)
    (h : cache.length ≤ limit + 1) :
    (evictCache limit bp cache disk).1.length ≤ limit := by
  cases cache with
  | nil => simp [evictCache]
  | cons e rest =>
      obtain ⟨k, p⟩ := e
      by_cases hle : ((k, p) :: rest).length ≤ limit
      · rw [evictCache_of_le limit bp _ disk hle]
        exact hle
      · rw [evictCache_cons_of_gt limit bp k p rest disk hle]
        simp only [List.length_cons] at h
        by_cases hp : p ∈ bp
        · rw [if_pos hp]
          simpa using Nat.le_of_succ_le_succ h
        · rw [if_neg hp]
          simpa using Nat.le_of_succ_le_succ h

theorem synthesizeMiss_cache_length (limit : Nat) (ef : Bool) (bp : List String)
    (st : TTSState) (key : CacheKey) (hlen : st.cache.length ≤ limit) :
    (synthesizeMiss limit ef bp st key).1.cache.length ≤ limit := by
  unfold synthesizeMiss
  by_cases hef : ef = true
  · rw [if_pos hef]
    exact hlen
  · rw [if_neg hef]
    have hd := dictSet_length_le key (freshName st.counter) st.cache
    have hev := evictCache_length_le limit bp (dictSet key (freshName st.counter) st.cache)
      (st.disk ++ [freshName st.counter]) (by omega)
    rcases hres : evictCache limit bp (dictSet key (freshName st.counter) st.cache)
      (st.disk ++ [freshName st.counter]) with ⟨c2, d2, r⟩
    rw [hres] at hev
    simp only [hres]
    exact hev

theorem synthesizeMiss_engineCalls (limit : Nat) (ef : Bool) (bp : List String)
    (st : TTSState) (key : CacheKey) :
    (synthesizeMiss limit ef bp st key).1.engineCalls = st.engineCalls + 1 := by
  unfold synthesizeMiss
  by_cases hef : ef = true
  · rw [if_pos hef]
  · rw [if_neg hef]

theorem synthesize_eq_hit (limit : Nat) (dv : String) (ef : Bool) (bp : List String)
    (st : TTSState) (text : String) (voice : Option String) (p : String)
    (hget : dictGet (text, resolveVoice dv voice) st.cache = some p) (hdisk : p ∈ st.disk) :
    synthesize limit dv ef bp st text voice = (st, Except.ok p) := by
  unfold synthesize
  simp only [hget, if_pos hdisk]

theorem synthesize_eq_stale (limit : Nat) (dv : String) (ef : Bool) (bp : List String)
    (st : TTSState) (text : String) (voice : Option String) (p : String)
    (hget : dictGet (text, resolveVoice dv voice) st.cache = some p) (hdisk : p ∉ st.disk) :
    synthesize limit dv ef bp st text voice =
      synthesizeMiss limit ef bp st (text, resolveVoice dv voice) := by
  unfold synthesize
  simp only [hget, if_neg hdisk]

theorem synthesize_eq_none (limit : Nat) (dv : String) (ef : Bool) (bp : List String)
    (st : TTSState) (text : String) (voice : Option String)
    (hget : dictGet (text, resolveVoice dv voice) st.cache = none) :
    synthesize limit dv ef bp st text voice =
      synthesizeMiss limit ef bp st (text, resolveVoice dv voice) := by
  unfold synthesize
  simp only [hget]

theorem synthesizeMiss_false (limit : Nat) (bp : List String) (st : TTSState) (key : CacheKey) :
    synthesizeMiss limit false bp st key =
      ({ cache := (evictCache limit bp (dictSet key (freshName st.counter) st.cache)
            (st.disk ++ [freshName st.counter])).1,
         disk := (evictCache limit bp (dictSet key (freshName st.counter) st.cache)
            (st.disk ++ [freshName st.counter])).2.1,
         counter := st.counter + 1,
         engineCalls := st.engineCalls + 1 },
        if (evictCache limit bp (dictSet key (freshName st.counter) st.cache)
            (st.disk ++ [freshName st.counter])).2.2 then
          Except.error "unlink raised during cache eviction"
        else Except.ok (freshName st.counter)) := rfl

/-- C4: after every `synthesize` call the cache holds at most `cache_limit`
(20) entries; when an insertion makes the cache exceed the limit, the
earliest-inserted key (the head of the insertion-ordered dict) is the one
evicted, its artifact file is deleted from disk (when its unlink does not
raise), and the mapping entry is removed even when the file deletion fails
(the conclusion on the resulting cache holds for every `badPaths`). -/
theorem tts_cache_bound_and_fifo_eviction
    (defaultVoice : String) (engineFails : Bool) (badPaths : List String)
    (st : TTSState) (text : String) (voice : Option String)
    (hlen : st.cache.length ≤ cacheLimit) :
    ((synthesize cacheLimit defaultVoice engineFails badPaths st text voice).1.cache.length
        ≤ cacheLimit)
    ∧ (∀ k0 p0 rest, st.cache = (k0, p0) :: rest →
        dictGet (text, resolveVoice defaultVoice voice) st.cache = none →
        st.cache.length = cacheLimit → engineFails = false →
        (synthesize cacheLimit defaultVoice engineFails badPaths st text voice).1.cache =
            rest ++ [((text, resolveVoice defaultVoice voice), freshName st.counter)]
          ∧ (p0 ∉ badPaths → st.disk.Nodup → freshName st.counter ∉ st.disk →
              p0 ∉ (synthesize cacheLimit defaultVoice engineFails badPaths
                st text voice).1.disk)) := by
  constructor
  · cases hget : dictGet (text, resolveVoice defaultVoice voice) st.cache with
    | some p =>
        by_cases hdisk : p ∈ st.disk
        · rw [synthesize_eq_hit cacheLimit defaultVoice engineFails badPaths st text voice p
            hget hdisk]
          exact hlen
        · rw [synthesize_eq_stale cacheLimit defaultVoice engineFails badPaths st text voice p
            hget hdisk]
          exact synthesizeMiss_cache_length _ _ _ _ _ hlen
    | none =>
        rw [synthesize_eq_none cacheLimit defaultVoice engineFails badPaths st text voice hget]
        exact synthesizeMiss_cache_length _ _ _ _ _ hlen
  · intro k0 p0 rest hcache hget hsize hef
    subst hef
    rw [synthesize_eq_none cacheLimit defaultVoice false badPaths st text voice hget,
      synthesizeMiss_false]
    have hset : dictSet (text, resolveVoice defaultVoice voice) (freshName st.counter) st.cache =
        st.cache ++ [((text, resolveVoice defaultVoice voice), freshName st.counter)] :=
      dictSet_of_get_none _ _ _ hget
    have hshape : dictSet (text, resolveVoice defaultVoice voice) (freshName st.counter)
        st.cache = (k0, p0) ::
          (rest ++ [((text, resolveVoice defaultVoice voice), freshName st.counter)]) := by
      rw [hset, hcache, List.cons_append]
    have hgt : ¬((k0, p0) ::
        (rest ++ [((text, resolveVoice defaultVoice voice), freshName st.counter)])).length
          ≤ cacheLimit := by
      have : ((k0, p0) ::
          (rest ++ [((text, resolveVoice defaultVoice voice), freshName st.counter)])).length =
            st.cache.length + 1 := by
        rw [hcache]
        simp
      rw [this, hsize]
      omega
    have hev := evictCache_cons_of_gt cacheLimit badPaths k0 p0
      (rest ++ [((text, resolveVoice defaultVoice voice), freshName st.counter)])
      (st.disk ++ [freshName st.counter]) hgt
    rw [hshape, hev]
    constructor
    · by_cases hp : p0 ∈ badPaths
      · rw [if_pos hp]
      · rw [if_neg hp]
    · intro hp hnd hfresh
      rw [if_neg hp]
      show p0 ∉ (st.disk ++ [freshName st.counter]).erase p0
      have hnd2 : (st.disk ++ [freshName st.counter]).Nodup :=
        hnd.append (List.nodup_singleton _) (List.disjoint_singleton.2 hfresh)
      exact hnd2.not_mem_erase

/-- A concrete 19-entry tail for the eviction witness cache. -/
def w4rest : List (CacheKey × String) :=
  (List.range 19).map (fun i => (("t" ++ Nat.repr (i + 1), "v"), "p" ++ Nat.repr (i + 1)))

/-- A concrete `TTSService` state whose cache is full (20 entries). -/
def w4st : TTSState :=
  { cache := (("t0", "v"), "p0") :: w4rest,
    disk := "p0" :: (List.range 19).map (fun i => "p" ++ Nat.repr (i + 1)),
    counter := 0,
    engineCalls := 0 }

theorem tts_cache_bound_and_fifo_eviction_witness :
    (synthesize cacheLimit "dv" false [] w4st "x" none).1.cache =
        w4rest ++ [(("x", resolveVoice "dv" none), freshName w4st.counter)]
      ∧ "p0" ∉ (synthesize cacheLimit "dv" false [] w4st "x" none).1.disk := by
  have h := (tts_cache_bound_and_fifo_eviction "dv" false [] w4st "x" none (by decide)).2
    ("t0", "v") "p0" w4rest rfl (by decide) (by decide) rfl
  exact ⟨h.1, h.2 (by decide) (by decide) (by decide)⟩

theorem synthesizeMiss_ok_lookup (limit : Nat) (bp : List String) (st : TTSState)
    (key : CacheKey) (st1 : TTSState) (p : String)
    (hlim : 1 ≤ limit) (hlen : st.cache.length ≤ limit)
    (hrun : synthesizeMiss limit false bp st key = (st1, Except.ok p)) :
    dictGet key st1.cache = some p ∧ st1.engineCalls = st.engineCalls + 1 := by
  rw [synthesizeMiss_false] at hrun
  by_cases hr : (evictCache limit bp (dictSet key (freshName st.counter) st.cache)
      (st.disk ++ [freshName st.counter])).2.2 = true
  · rw [if_pos hr] at hrun
    injection hrun with h1 h2
    injection h2
  · rw [if_neg hr] at hrun
    injection hrun with h1 h2
    injection h2 with h2
    subst h1
    subst h2
    refine ⟨?_, rfl⟩
    cases hget : dictGet key st.cache with
    | some v0 =>
        have hlenEq := dictSet_length_of_get_some key (freshName st.counter) v0 st.cache hget
        have hle2 : (dictSet key (freshName st.counter) st.cache).length ≤ limit := by
          rw [hlenEq]
          exact hlen
        rw [evictCache_of_le _ _ _ _ hle2]
        exact dictGet_dictSet_self _ _ _
    | none =>
        have hset := dictSet_of_get_none key (freshName st.counter) st.cache hget
        by_cases hle2 : (dictSet key (freshName st.counter) st.cache).length ≤ limit
        · rw [evictCache_of_le _ _ _ _ hle2, hset]
          exact dictGet_append_self _ _ _ hget
        · cases hc : st.cache with
          | nil =>
              exfalso
              rw [hset, hc] at hle2
              simp at hle2
              omega
          | cons e rest =>
              obtain ⟨k0, q0⟩ := e
              rw [hc] at hset hle2 hget
              rw [List.cons_append] at hset
              rw [hset] at hle2 ⊢
              rw [evictCache_cons_of_gt _ _ _ _ _ _ hle2]
              have hrest : dictGet key rest = none := by
                rw [dictGet_cons] at hget
                by_cases hk : k0 = key
                · rw [if_pos hk] at hget
                  cases hget
                · rwa [if_neg hk] at hget
              by_cases hq : q0 ∈ bp
              · rw [if_pos hq]
                exact dictGet_append_self _ _ _ hrest
              · rw [if_neg hq]
                exact dictGet_append_self _ _ _ hrest

/-- C5: if a `synthesize` call from a state with a within-limit cache
succeeds with artifact path `p`, then (a) as long as `p` is still on disk, a
second call with the same (text, voice) returns the same path with the
state unchanged — in particular the engine is not invoked again, so across
both calls the engine ran at most once; and (b) if the cached file was
externally deleted, the second call is a miss and resynthesizes, invoking
the engine exactly once more. -/
theorem tts_synthesize_idempotent_cache_hit
    (dv : String) (bp : List String) (st st1 : TTSState) (text : String)
    (voice : Option String) (p : String)
    (hlen : st.cache.length ≤ cacheLimit)
    (hrun : synthesize cacheLimit dv false bp st text voice = (st1, Except.ok p)) :
    (p ∈ st1.disk → synthesize cacheLimit dv false bp st1 text voice = (st1, Except.ok p))
    ∧ st1.engineCalls ≤ st.engineCalls + 1
    ∧ (∀ disk2 : List String, p ∉ disk2 →
        (synthesize cacheLimit dv false bp { st1 with disk := disk2 } text voice).1.engineCalls
          = st1.engineCalls + 1) := by
  have hkey : dictGet (text, resolveVoice dv voice) st1.cache = some p
      ∧ st1.engineCalls ≤ st.engineCalls + 1 := by
    cases hget : dictGet (text, resolveVoice dv voice) st.cache with
    | some q =>
        by_cases hdisk : q ∈ st.disk
        · rw [synthesize_eq_hit cacheLimit dv false bp st text voice q hget hdisk] at hrun
          injection hrun with h1 h2
          injection h2 with h2
          subst h1
          subst h2
          exact ⟨hget, Nat.le_succ _⟩
        · rw [synthesize_eq_stale cacheLimit dv false bp st text voice q hget hdisk] at hrun
          have h := synthesizeMiss_ok_lookup cacheLimit bp st _ st1 p (by decide) hlen hrun
          exact ⟨h.1, le_of_eq h.2⟩
    | none =>
        rw [synthesize_eq_none cacheLimit dv false bp st text voice hget] at hrun
        have h := synthesizeMiss_ok_lookup cacheLimit bp st _ st1 p (by decide) hlen hrun
        exact ⟨h.1, le_of_eq h.2⟩
  refine ⟨?_, hkey.2, ?_⟩
  · intro hdisk
    exact synthesize_eq_hit cacheLimit dv false bp st1 text voice p hkey.1 hdisk
  · intro disk2 hnd
    have hget2 : dictGet (text, resolveVoice dv voice)
        ({ st1 with disk := disk2 } : TTSState).cache = some p := hkey.1
    rw [synthesize_eq_stale cacheLimit dv false bp { st1 with disk := disk2 } text voice p
      hget2 hnd]
    rw [synthesizeMiss_engineCalls]

/-- The state reached after one successful synthesis from an empty state. -/
def w5st1 : TTSState :=
  { cache := [(("hello", "dv"), freshName 0)],
    disk := [freshName 0],
    counter := 1,
    engineCalls := 1 }

theorem tts_synthesize_idempotent_cache_hit_witness :
    synthesize cacheLimit "dv" false [] w5st1 "hello" none = (w5st1, Except.ok (freshName 0))
    ∧ (synthesize cacheLimit "dv" false []
        { w5st1 with disk := [] } "hello" none).1.engineCalls = w5st1.engineCalls + 1 := by
  have h := tts_synthesize_idempotent_cache_hit "dv" [] ⟨[], [], 0, 0⟩ w5st1 "hello" none
    (freshName 0) (by decide) rfl
  exact ⟨h.1 (by decide), h.2.2 [] (by decide)⟩

/-- C10: when a cache hit finds the cached artifact no longer on disk,
`synthesize` resynthesizes (engine invoked once), returns the fresh
artifact, and stores it under the existing key without changing the key
order of the cache: eviction order is still determined by first insertion. -/
theorem tts_stale_resynthesis_preserves_position
    (dv : String) (bp : List String) (st : TTSState) (text : String)
    (voice : Option String) (pOld : String)
    (hget : dictGet (text, resolveVoice dv voice) st.cache = some pOld)
    (hstale : pOld ∉ st.disk)
    (hlen : st.cache.length ≤ cacheLimit) :
    ((synthesize cacheLimit dv false bp st text voice).1.cache.map Prod.fst
        = st.cache.map Prod.fst)
    ∧ dictGet (text, resolveVoice dv voice)
        (synthesize cacheLimit dv false bp st text voice).1.cache
        = some (freshName st.counter)
    ∧ (synthesize cacheLimit dv false bp st text voice).2 = Except.ok (freshName st.counter)
    ∧ (synthesize cacheLimit dv false bp st text voice).1.engineCalls
        = st.engineCalls + 1 := by
  rw [synthesize_eq_stale cacheLimit dv false bp st text voice pOld hget hstale,
    synthesizeMiss_false]
  have hle2 : (dictSet (text, resolveVoice dv voice) (freshName st.counter) st.cache).length
      ≤ cacheLimit := by
    rw [dictSet_length_of_get_some _ _ _ _ hget]
    exact hlen
  rw [evictCache_of_le _ _ _ _ hle2]
  exact ⟨dictSet_keys_of_get_some _ _ _ _ hget, dictGet_dictSet_self _ _ _, rfl, rfl⟩

/-- A concrete stale-cache state: the key is cached but its file is gone. -/
def w10st : TTSState :=
  { cache := [(("hi", "dv"), "old.wav")],
    disk := [],
    counter := 5,
    engineCalls := 3 }

theorem tts_stale_resynthesis_preserves_position_witness :
    ((synthesize cacheLimit "dv" false [] w10st "hi" none).1.cache.map Prod.fst
        = w10st.cache.map Prod.fst)
    ∧ (synthesize cacheLimit "dv" false [] w10st "hi" none).2
        = Except.ok (freshName 5) := by
  have h := tts_stale_resynthesis_preserves_position "dv" [] w10st "hi" none "old.wav"
    (by decide) (by decide) (by decide)
  exact ⟨h.1, h.2.2.1⟩

/-! ## Chat route (`/api/chat`, app.py lines 345-375)

The LLM provider call is a parameter `llm` from the built message list to a
result (`Except.error` models a raised provider exception, whose message the
route surfaces).  The structured message list models the prompt content for
both providers: the OpenRouter branch sends it as-is and the Qwen branch
flattens exactly these turns into a single prompt string (app.py 267-271 and
289-291).  `engineFails`/`badPaths` parametrise the TTS call as in the
`TTSService` model above. -/

/-- Python whitespace stripped by `str.strip()` (ASCII subset). -/
def isPySpace (c : Char) : Bool :=
  c = ' ' || c = '\t' || c = '\n' || c = '\r' || c = '\x0b' || c = '\x0c'

/-- `s.strip()`: drop whitespace from both ends. -/
def pyStrip (s : String) : String :=
  ⟨((s.data.dropWhile isPySpace).reverse.dropWhile isPySpace).reverse⟩

/-- The system instruction literal (app.py lines 259 and 268). -/
def systemInstruction : String := "You are a concise, helpful voice assistant."

/-- The message list built by `chat_completion` (app.py lines 266-271):
system instruction, then the last `2*window` history turns, then the new
user message. -/
def buildMessages (window : Nat) (hist : List Turn) (message : String) : List Turn :=
  ⟨"system", systemInstruction⟩ :: (lastN (window * 2) hist ++ [⟨"user", message⟩])

/-- The JSON response shapes of the `/api/chat` route. -/
inductive ChatResponse where
  | providerNotConfigured (provider : String)
  | messageRequired
  | completionFailed (msg : String)
  | success (reply : String) (audioUrl : Option String) (history : List Turn)
deriving DecidableEq

/-- HTTP status code of each chat response (app.py lines 349, 356, 364, 375). -/
def ChatResponse.status : ChatResponse → Nat
  | providerNotConfigured _ => 503
  | messageRequired => 400
  | completionFailed _ => 500
  | success _ _ _ => 200

/-- Process-wide mutable state touched by the chat route. -/
structure ServerState where
  history : List Turn
  tts : TTSState
deriving DecidableEq

/-- History after the post-success appends (app.py lines 360-361): user
turn first, then the assistant reply. -/
def postHistory (window : Nat) (st : ServerState) (message reply : String) : List Turn :=
  appendHistory window (appendHistory window st.history "user" message) "assistant" reply

/-- The tail of the chat route after a successful completion (app.py lines
360-375): append both turns, then optionally synthesize audio — a raising
synthesis is logged and degraded to `audio_url = null` (lines 371-373) —
and reply with the recent window. -/
def chatSuccess (window : Nat) (ttsConfigured : Bool) (dv : String) (engineFails : Bool)
    (badPaths : List String) (st : ServerState) (message reply : String) (wantsAudio : Bool) :
    ChatResponse × ServerState :=
  if wantsAudio && ttsConfigured then
    match synthesize cacheLimit dv engineFails badPaths st.tts reply none with
    | (tts2, Except.ok path) =>
        (ChatResponse.success reply (some ("/static/audio/" ++ path))
            (lastN (window * 2) (postHistory window st message reply)),
          { history := postHistory window st message reply, tts := tts2 })
    | (tts2, Except.error _) =>
        (ChatResponse.success reply none
            (lastN (window * 2) (postHistory window st message reply)),
          { history := postHistory window st message reply, tts := tts2 })
  else
    (ChatResponse.success reply none
        (lastN (window * 2) (postHistory window st message reply)),
      { history := postHistory window st message reply, tts := st.tts })

/-- Embedding of the `/api/chat` route (app.py lines 345-375): provider
check (503), then empty-message check (400), then the LLM call — on a
raised provider error the route returns 500 with the exception message and
the state is untouched. -/
def chatRoute (window : Nat) (providerConfigured : Bool) (provider : String)
    (ttsConfigured : Bool) (dv : String) (engineFails : Bool) (badPaths : List String)
    (llm : List Turn → Except String String) (st : ServerState) (rawMessage : String)
    (wantsAudio : Bool) : ChatResponse × ServerState :=
  if providerConfigured then
    if pyStrip rawMessage = "" then (ChatResponse.messageRequired, st)
    else
      match llm (buildMessages window st.history (pyStrip rawMessage)) with
      | Except.error e => (ChatResponse.completionFailed e, st)
      | Except.ok reply =>
          chatSuccess window ttsConfigured dv engineFails badPaths st (pyStrip rawMessage)
            reply wantsAudio
  else (ChatResponse.providerNotConfigured provider, st)

/-- C2: if the LLM completion call fails, the request returns the 500 error
response and the server state — in particular the conversation history — is
exactly what it was before the request: no halfway append. -/
theorem chat_llm_failure_leaves_history_unchanged
    (window : Nat) (provider : String) (ttsConfigured : Bool) (dv : String)
    (engineFails : Bool) (badPaths : List String) (llm : List Turn → Except String String)
    (st : ServerState) (rawMessage : String) (wantsAudio : Bool) (e : String)
    (hmsg : pyStrip rawMessage ≠ "")
    (hllm : llm (buildMessages window st.history (pyStrip rawMessage)) = Except.error e) :
    chatRoute window true provider ttsConfigured dv engineFails badPaths llm st rawMessage
        wantsAudio = (ChatResponse.completionFailed e, st)
    ∧ (ChatResponse.completionFailed e).status = 500 := by
  constructor
  · unfold chatRoute
    rw [if_pos rfl, if_neg hmsg, hllm]
  · rfl

theorem chat_llm_failure_leaves_history_unchanged_witness :
    chatRoute 5 true "qwen" false "dv" false [] (fun _ => Except.error "boom")
        ⟨[], ⟨[], [], 0, 0⟩⟩ "hello" false
      = (ChatResponse.completionFailed "boom", ⟨[], ⟨[], [], 0, 0⟩⟩) :=
  (chat_llm_failure_leaves_history_unchanged 5 "qwen" false "dv" false []
    (fun _ => Except.error "boom") ⟨[], ⟨[], [], 0, 0⟩⟩ "hello" false "boom"
    (by decide) rfl).1

theorem chatSuccess_history (window : Nat) (ttsConfigured : Bool) (dv : String)
    (engineFails : Bool) (badPaths : List String) (st : ServerState)
    (message reply : String) (wantsAudio : Bool) :
    (chatSuccess window ttsConfigured dv engineFails badPaths st message reply
        wantsAudio).2.history = postHistory window st message reply := by
  unfold chatSuccess
  by_cases hw : (wantsAudio && ttsConfigured) = true
  · rw [if_pos hw]
    rcases hsyn : synthesize cacheLimit dv engineFails badPaths st.tts reply none
      with ⟨tts2, res⟩
    cases res with
    | ok path => simp only [hsyn]
    | error e => simp only [hsyn]
  · rw [if_neg hw]

/-- C3: on a successful chat turn the prompt sent to the LLM is the system
instruction, then the history window captured before any append of this
exchange, then the new user message; the new message is the final turn and
(when not already present in the window) occurs exactly once; and only
after the LLM succeeds are the user turn and then the assistant reply
appended, user before assistant. -/
theorem chat_prompt_window_and_append_order
    (window : Nat) (provider : String) (ttsConfigured : Bool) (dv : String)
    (engineFails : Bool) (badPaths : List String) (llm : List Turn → Except String String)
    (st : ServerState) (rawMessage : String) (wantsAudio : Bool) (reply : String)
    (hmsg : pyStrip rawMessage ≠ "")
    (hllm : llm (buildMessages window st.history (pyStrip rawMessage)) = Except.ok reply) :
    buildMessages window st.history (pyStrip rawMessage)
        = ⟨"system", systemInstruction⟩ ::
            (lastN (window * 2) st.history ++ [⟨"user", pyStrip rawMessage⟩])
    ∧ (buildMessages window st.history (pyStrip rawMessage)).getLast?
        = some ⟨"user", pyStrip rawMessage⟩
    ∧ (Turn.mk "user" (pyStrip rawMessage) ∉ lastN (window * 2) st.history →
        ((buildMessages window st.history (pyStrip rawMessage)).filter
            (fun t => decide (t = Turn.mk "user" (pyStrip rawMessage)))).length = 1)
    ∧ (chatRoute window true provider ttsConfigured dv engineFails badPaths llm st
          rawMessage wantsAudio).2.history
        = appendHistory window
            (appendHistory window st.history "user" (pyStrip rawMessage))
            "assistant" reply := by
  refine ⟨rfl, ?_, ?_, ?_⟩
  · unfold buildMessages
    rw [← List.cons_append, List.getLast?_concat]
  · intro hmem
    unfold buildMessages
    have hsys : (Turn.mk "system" systemInstruction)
        ≠ Turn.mk "user" (pyStrip rawMessage) := by
      intro h
      have hne : ("system" : String) ≠ "user" := by decide
      exact hne (congrArg Turn.role h)
    rw [List.filter_cons]
    rw [decide_eq_false hsys]
    simp only [Bool.false_eq_true, if_false]
    rw [List.filter_append]
    have hwin : (lastN (window * 2) st.history).filter
        (fun t => decide (t = Turn.mk "user" (pyStrip rawMessage))) = [] := by
      rw [List.filter_eq_nil_iff]
      intro a ha
      simp only [decide_eq_true_eq]
      intro heq
      exact hmem (heq ▸ ha)
    rw [hwin, List.nil_append]
    simp
  · have hroute : chatRoute window true provider ttsConfigured dv engineFails badPaths llm
        st rawMessage wantsAudio
          = chatSuccess window ttsConfigured dv engineFails badPaths st
              (pyStrip rawMessage) reply wantsAudio := by
      unfold chatRoute
      rw [if_pos rfl, if_neg hmsg, hllm]
    rw [hroute, chatSuccess_history]
    rfl

theorem chat_prompt_window_and_append_order_witness :
    ((buildMessages 5 [] (pyStrip " hello ")).filter
        (fun t => decide (t = Turn.mk "user" (pyStrip " hello ")))).length = 1
    ∧ (chatRoute 5 true "qwen" false "dv" false [] (fun _ => Except.ok "hi")
        ⟨[], ⟨[], [], 0, 0⟩⟩ " hello " false).2.history
      = appendHistory 5 (appendHistory 5 [] "user" (pyStrip " hello ")) "assistant" "hi" := by
  have h := chat_prompt_window_and_append_order 5 "qwen" false "dv" false []
    (fun _ => Except.ok "hi") ⟨[], ⟨[], [], 0, 0⟩⟩ " hello " false "hi" (by decide) rfl
  exact ⟨h.2.2.1 (by decide), h.2.2.2⟩

/-- C6: when audio output was requested and the TTS synthesis raises, the
chat request still succeeds: 200 with the reply populated and
`audio_url = null`, and both turns were still appended to the history —
synthesis failure never fails the overall chat request. -/
theorem chat_synthesis_failure_degrades_gracefully
    (window : Nat) (provider : String) (dv : String) (engineFails : Bool)
    (badPaths : List String) (llm : List Turn → Except String String)
    (st : ServerState) (rawMessage : String) (reply : String) (tts2 : TTSState) (e : String)
    (hmsg : pyStrip rawMessage ≠ "")
    (hllm : llm (buildMessages window st.history (pyStrip rawMessage)) = Except.ok reply)
    (hsyn : synthesize cacheLimit dv engineFails badPaths st.tts reply none
        = (tts2, Except.error e)) :
    chatRoute window true provider true dv engineFails badPaths llm st rawMessage true
      = (ChatResponse.success reply none
            (lastN (window * 2) (postHistory window st (pyStrip rawMessage) reply)),
          { history := postHistory window st (pyStrip rawMessage) reply, tts := tts2 })
    ∧ (ChatResponse.success reply none
        (lastN (window * 2) (postHistory window st (pyStrip rawMessage) reply))).status
      = 200 := by
  constructor
  · unfold chatRoute
    rw [if_pos rfl, if_neg hmsg, hllm]
    show chatSuccess window true dv engineFails badPaths st (pyStrip rawMessage) reply true
      = _
    unfold chatSuccess
    rw [if_pos (show (true && true) = true from rfl), hsyn]
  · rfl

theorem chat_synthesis_failure_degrades_gracefully_witness :
    chatRoute 5 true "qwen" true "dv" true [] (fun _ => Except.ok "hi")
        ⟨[], ⟨[], [], 0, 0⟩⟩ "hello" true
      = (ChatResponse.success "hi" none
            (lastN 10 (postHistory 5 ⟨[], ⟨[], [], 0, 0⟩⟩ (pyStrip "hello") "hi")),
          { history := postHistory 5 ⟨[], ⟨[], [], 0, 0⟩⟩ (pyStrip "hello") "hi",
            tts := ⟨[], [], 1, 1⟩ }) :=
  (chat_synthesis_failure_degrades_gracefully 5 "qwen" "dv" true []
    (fun _ => Except.ok "hi") ⟨[], ⟨[], [], 0, 0⟩⟩ "hello" "hi" ⟨[], [], 1, 1⟩
    "TTS synthesis failed" (by decide) rfl rfl).1

/-- C7 counterexample: a request with an empty message is answered with 503,
not 400, when no LLM provider is configured — the provider check precedes
the empty-message check (app.py lines 348 and 355), so the claim as stated
fails on such requests. -/
theorem chat_empty_message_counterexample :
    pyStrip "" = ""
    ∧ (chatRoute 5 false "qwen" false "dv" false [] (fun _ => Except.error "no")
        ⟨[], ⟨[], [], 0, 0⟩⟩ "" false).1.status = 503
    ∧ ¬(chatRoute 5 false "qwen" false "dv" false [] (fun _ => Except.error "no")
        ⟨[], ⟨[], [], 0, 0⟩⟩ "" false).1.status = 400 := by
  refine ⟨rfl, rfl, by decide⟩

/-- C7 amended: whenever an LLM provider is configured, a request whose
message is empty or whitespace-only is rejected with InvalidRequest /
HTTP 400 and the state is unchanged. -/
theorem chat_empty_message_rejected
    (window : Nat) (provider : String) (ttsConfigured : Bool) (dv : String)
    (engineFails : Bool) (badPaths : List String) (llm : List Turn → Except String String)
    (st : ServerState) (rawMessage : String) (wantsAudio : Bool)
    (hmsg : pyStrip rawMessage = "") :
    chatRoute window true provider ttsConfigured dv engineFails badPaths llm st rawMessage
        wantsAudio = (ChatResponse.messageRequired, st)
    ∧ ChatResponse.messageRequired.status = 400 := by
  constructor
  · unfold chatRoute
    rw [if_pos rfl, if_pos hmsg]
  · rfl

theorem chat_empty_message_rejected_witness :
    chatRoute 5 true "qwen" false "dv" false [] (fun _ => Except.error "no")
        ⟨[], ⟨[], [], 0, 0⟩⟩ "   " false
      = (ChatResponse.messageRequired, ⟨[], ⟨[], [], 0, 0⟩⟩) :=
  (chat_empty_message_rejected 5 "qwen" false "dv" false [] (fun _ => Except.error "no")
    ⟨[], ⟨[], [], 0, 0⟩⟩ "   " false (by decide)).1

/-! ## Speech-to-text route (`/api/speech-to-text`, app.py lines 378-428)

The provider boundary (`recognize_google`, app.py line 169) is a parameter:
it either yields a best transcript, reports no recognizable speech
(`UnknownValueError`, also raised by the code itself when the result has no
alternatives, lines 178-179), or raises a `RequestError` with a message.
Segment bounds are the literal constants 0.0 (line 175), modelled as `0`.
The route classifies a failure as `no_speech` by substring test on the
exception message (line 418). -/

/-- One transcript segment (app.py line 175). -/
structure Segment where
  text : String
  startSec : Nat
  endSec : Nat
deriving DecidableEq

/-- Outcome of the underlying speech-recognition provider call. -/
inductive SttOutcome where
  | recognized (transcript : String)
  | unknownValue
  | requestError (msg : String)
deriving DecidableEq

/-- The value returned by a successful `STTService.transcribe`. -/
structure TranscriptResult where
  text : String
  segments : List Segment
  language : String
deriving DecidableEq

/-- `language if language else "en-US"` (app.py line 168). -/
def languageCode : Option String → String
  | none => "en-US"
  | some l => if l = "" then "en-US" else l

/-- Does `needle` lead the list?  Helper for the substring test. -/
def leadMatch : List Char → List Char → Bool
  | [], _ => true
  | _ :: _, [] => false
  | a :: as, b :: bs => a == b && leadMatch as bs

/-- Contiguous-substring test on character lists. -/
def containsSub : List Char → List Char → Bool
  | [], needle => needle.isEmpty
  | h :: hayRest, needle => leadMatch needle (h :: hayRest) || containsSub hayRest needle

/-- Python `needle in s` for strings: contiguous substring test. -/
def pyContains (s needle : String) : Bool := containsSub s.data needle.data

/-- Embedding of `STTService.transcribe` (app.py lines 162-183): a raised
exception is `Except.error` carrying the exception message. -/
def transcribe (outcome : SttOutcome) (language : Option String) :
    Except String TranscriptResult :=
  match outcome with
  | SttOutcome.recognized t =>
      Except.ok { text := pyStrip t,
                  segments := [{ text := pyStrip t, startSec := 0, endSec := 0 }],
                  language := languageCode language }
  | SttOutcome.unknownValue => Except.error "Could not understand audio"
  | SttOutcome.requestError m =>
      Except.error ("Speech recognition service error: " ++ m)

/-- The JSON response shapes of the `/api/speech-to-text` route. -/
inductive SttResponse where
  | notConfigured
  | noFile
  | unsupportedType
  | noSpeech (transcript : String) (segments : List Segment) (language : Option String)
      (audioUrl : Option String)
  | failure (msg : String)
  | done (transcript : String) (segments : List Segment) (language : String)
      (audioUrl : String)
deriving DecidableEq

/-- HTTP status of each speech-to-text response (app.py lines 382, 386,
389, 425, 426, 428). -/
def SttResponse.status : SttResponse → Nat
  | notConfigured => 503
  | noFile => 400
  | unsupportedType => 400
  | noSpeech _ _ _ _ => 200
  | failure _ => 500
  | done _ _ _ _ => 200

/-- `allowed_audio` (app.py lines 232-235): the mimetype starts with
"audio/" or is exactly "application/octet-stream". -/
def allowedAudio (mimetype : String) : Bool :=
  leadMatch "audio/".data mimetype.data || decide (mimetype = "application/octet-stream")

/-- Embedding of the `/api/speech-to-text` route (app.py lines 378-428):
guards, then the transcription; an exception whose message contains
"Could not understand audio" is surfaced as a 200 `no_speech` result with
empty transcript and segments, any other exception as a 500 error. -/
def sttRoute (sttConfigured : Bool) (hasFile : Bool) (mimetype : String)
    (language : Option String) (outcome : SttOutcome) (savedName : String) : SttResponse :=
  if !sttConfigured then SttResponse.notConfigured
  else if !hasFile then SttResponse.noFile
  else if !allowedAudio mimetype then SttResponse.unsupportedType
  else
    match transcribe outcome language with
    | Except.ok r =>
        SttResponse.done r.text r.segments r.language ("/static/audio/" ++ savedName)
    | Except.error msg =>
        if pyContains msg "Could not understand audio" then
          SttResponse.noSpeech "" [] language (some ("/static/audio/" ++ savedName))
        else SttResponse.failure msg

/-- C8 counterexample: a provider `RequestError` (not a no-speech outcome)
whose message happens to contain the phrase "Could not understand audio" is
classified by the substring test as `no_speech` and answered with 200, not
500 — so "other provider failures return 500" fails as stated. -/
theorem stt_request_error_phrase_counterexample :
    sttRoute true true "audio/wav" none
        (SttOutcome.requestError "quota exceeded: Could not understand audio")
        "u.wav"
      = SttResponse.noSpeech "" [] none (some "/static/audio/u.wav")
    ∧ ¬(sttRoute true true "audio/wav" none
        (SttOutcome.requestError "quota exceeded: Could not understand audio")
        "u.wav").status = 500 := by
  constructor
  · decide
  · decide

/-- C8 amended: a no-speech provider outcome yields HTTP 200 with empty
transcript, empty segments and the `no_speech` marker (not an error); any
other provider failure yields 500 — unless its message itself contains the
phrase "Could not understand audio", in which case the substring
classification also reports it as 200 `no_speech`. -/
theorem stt_no_speech_and_failures
    (language : Option String) (savedName : String) (mimetype : String)
    (hmime : allowedAudio mimetype = true) :
    (sttRoute true true mimetype language SttOutcome.unknownValue savedName
        = SttResponse.noSpeech "" [] language (some ("/static/audio/" ++ savedName))
      ∧ (sttRoute true true mimetype language SttOutcome.unknownValue savedName).status
          = 200)
    ∧ (∀ m, pyContains ("Speech recognition service error: " ++ m)
          "Could not understand audio" = false →
        sttRoute true true mimetype language (SttOutcome.requestError m) savedName
            = SttResponse.failure ("Speech recognition service error: " ++ m)
          ∧ (sttRoute true true mimetype language (SttOutcome.requestError m)
              savedName).status = 500)
    ∧ (∀ m, pyContains ("Speech recognition service error: " ++ m)
          "Could not understand audio" = true →
        sttRoute true true mimetype language (SttOutcome.requestError m) savedName
          = SttResponse.noSpeech "" [] language (some ("/static/audio/" ++ savedName))) := by
  have hroute : ∀ outcome, sttRoute true true mimetype language outcome savedName
      = (match transcribe outcome language with
        | Except.ok r =>
            SttResponse.done r.text r.segments r.language ("/static/audio/" ++ savedName)
        | Except.error msg =>
            if pyContains msg "Could not understand audio" then
              SttResponse.noSpeech "" [] language (some ("/static/audio/" ++ savedName))
            else SttResponse.failure msg) := by
    intro outcome
    unfold sttRoute
    rw [hmime]
    rfl
  refine ⟨⟨?_, ?_⟩, ?_, ?_⟩
  · rw [hroute]
    show (if pyContains "Could not understand audio" "Could not understand audio" then _
      else _) = _
    rw [if_pos (by decide)]
  · rw [hroute]
    show ((if pyContains "Could not understand audio" "Could not understand audio" then _
      else _) : SttResponse).status = 200
    rw [if_pos (by decide)]
    rfl
  · intro m hm
    constructor
    · rw [hroute]
      show (if pyContains ("Speech recognition service error: " ++ m)
          "Could not understand audio" then _ else _) = _
      rw [hm]
      rfl
    · rw [hroute]
      show ((if pyContains ("Speech recognition service error: " ++ m)
          "Could not understand audio" then _ else _) : SttResponse).status = 500
      rw [hm]
      rfl
  · intro m hm
    rw [hroute]
    show (if pyContains ("Speech recognition service error: " ++ m)
        "Could not understand audio" then _ else _) = _
    rw [hm]
    rfl

theorem stt_no_speech_and_failures_witness :
    sttRoute true true "audio/wav" none SttOutcome.unknownValue "a.wav"
      = SttResponse.noSpeech "" [] none (some "/static/audio/a.wav")
    ∧ sttRoute true true "audio/wav" none (SttOutcome.requestError "boom") "a.wav"
      = SttResponse.failure ("Speech recognition service error: " ++ "boom") := by
  have h := stt_no_speech_and_failures none "a.wav" "audio/wav" (by decide)
  exact ⟨h.1.1, (h.2.1 "boom" (by decide)).1⟩

/-! ## Audio pruning (`prune_audio`, app.py lines 222-229)

A directory entry is a file name, a modification time (seconds, as an
integer — `st_mtime` compared against `utcnow() - timedelta(minutes=n)`),
and a flag saying whether its `stat`/`unlink` raises.  The per-file `try`
swallows any exception, so an erroring file merely survives and the scan
continues with the next file. -/

/-- One file in the audio directory as seen by `prune_audio`. -/
structure AudioFile where
  path : String
  mtime : Int
  opErrors : Bool
deriving DecidableEq

/-- Embedding of `prune_audio`: returns the surviving files (in order) and
the list of examined file paths (in scan order).  A file is deleted exactly
when its stat/unlink does not error and its mtime is strictly before
`now - 60 * maxAgeMinutes`. -/
def pruneAudio (now : Int) (maxAgeMinutes : Nat) : List AudioFile → List AudioFile × List String
  | [] => ([], [])
  | f :: rest =>
      let r := pruneAudio now maxAgeMinutes rest
      if f.opErrors then (f :: r.1, f.path :: r.2)
      else if f.mtime < now - 60 * (maxAgeMinutes : Int) then (r.1, f.path :: r.2)
      else (f :: r.1, f.path :: r.2)

/-- C9 counterexample: with `maxAgeMinutes = 0` the cutoff is the current
instant and the comparison is strict, so an existing file whose mtime
equals `now` survives — "deletes every existing file" fails as stated. -/
theorem prune_maxage_zero_counterexample :
    (AudioFile.mk "a.wav" 0 false) ∈ (pruneAudio 0 0 [AudioFile.mk "a.wav" 0 false]).1
    ∧ (pruneAudio 0 0 [AudioFile.mk "a.wav" 0 false]).1 = [AudioFile.mk "a.wav" 0 false] := by
  constructor
  · decide
  · decide

theorem pruneAudio_filter_spec (now : Int) (maxAge : Nat) (files : List AudioFile) :
    (pruneAudio now maxAge files).1
        = files.filter
            (fun f => f.opErrors || !(decide (f.mtime < now - 60 * (maxAge : Int))))
    ∧ (pruneAudio now maxAge files).2 = files.map AudioFile.path := by
  induction files with
  | nil => exact ⟨rfl, rfl⟩
  | cons f rest ih =>
      unfold pruneAudio
      rw [List.filter_cons, List.map_cons]
      by_cases he : f.opErrors = true
      · rw [if_pos he, he]
        simp only [Bool.true_or, if_pos]
        exact ⟨by rw [ih.1], by rw [ih.2]⟩
      · rw [if_neg he]
        have he' : f.opErrors = false := by
          cases hb : f.opErrors
          · rfl
          · exact absurd hb he
        rw [he']
        by_cases hm : f.mtime < now - 60 * (maxAge : Int)
        · rw [if_pos hm, decide_eq_true hm]
          simp only [Bool.false_or, Bool.not_true, Bool.false_eq_true, if_false]
          exact ⟨by rw [ih.1], by rw [ih.2]⟩
        · rw [if_neg hm, decide_eq_false hm]
          simp only [Bool.false_or, Bool.not_false, if_pos]
          exact ⟨by rw [ih.1], by rw [ih.2]⟩

/-- C9 amended: pruning with `maxAgeMinutes = 0` deletes every file whose
mtime is strictly before the prune instant and whose deletion does not
error; with an age bound large enough that the cutoff is at or before every
mtime of every file (the unbounded case) it deletes none; and a per-file error
never aborts the scan: every file is examined, and the survivors are
exactly the per-file filter independent of errors on other files. -/
theorem prune_audio_age_bounds (now : Int) (maxAge : Nat) (files : List AudioFile) :
    ((∀ f ∈ files, f.opErrors = false) → (∀ f ∈ files, f.mtime < now) →
        (pruneAudio now 0 files).1 = [])
    ∧ ((∀ f ∈ files, now - 60 * (maxAge : Int) ≤ f.mtime) →
        (pruneAudio now maxAge files).1 = files)
    ∧ (pruneAudio now maxAge files).2 = files.map AudioFile.path
    ∧ (pruneAudio now maxAge files).1
        = files.filter
            (fun f => f.opErrors || !(decide (f.mtime < now - 60 * (maxAge : Int)))) := by
  refine ⟨?_, ?_, (pruneAudio_filter_spec now maxAge files).2,
    (pruneAudio_filter_spec now maxAge files).1⟩
  · intro herr hold
    rw [(pruneAudio_filter_spec now 0 files).1]
    rw [List.filter_eq_nil_iff]
    intro f hf
    rw [herr f hf]
    have : f.mtime < now - 60 * ((0 : Nat) : Int) := by
      have := hold f hf
      omega
    rw [decide_eq_true this]
    decide
  · intro hyoung
    rw [(pruneAudio_filter_spec now maxAge files).1]
    rw [List.filter_eq_self]
    intro f hf
    have : ¬(f.mtime < now - 60 * (maxAge : Int)) := by
      have := hyoung f hf
      omega
    rw [decide_eq_false this]
    cases hb : f.opErrors
    · decide
    · decide

theorem prune_audio_age_bounds_witness :
    (pruneAudio 0 0 [AudioFile.mk "f1.wav" (-5) false, AudioFile.mk "f2.wav" (-1) false]).1
        = []
    ∧ (pruneAudio 0 60 [AudioFile.mk "f1.wav" (-5) false,
        AudioFile.mk "f2.wav" (-1) false]).1
        = [AudioFile.mk "f1.wav" (-5) false, AudioFile.mk "f2.wav" (-1) false]
    ∧ (pruneAudio 0 0 [AudioFile.mk "bad.wav" (-100) true,
        AudioFile.mk "old.wav" (-100) false]).2
        = ["bad.wav", "old.wav"] := by
  refine ⟨(prune_audio_age_bounds 0 0 _).1 ?_ ?_,
    (prune_audio_age_bounds 0 60 _).2.1 ?_,
    (prune_audio_age_bounds 0 0 [AudioFile.mk "bad.wav" (-100) true,
      AudioFile.mk "old.wav" (-100) false]).2.2.1⟩
  · decide
  · decide
  · decide
